import Mathlib

/-!
Shallow embedding of `src/setuid_runner.c`, a privilege-de-escalation
launcher.  Pure string/list computations embed the C string handling
directly; the operating-system calls (getenv, getpwnam, initgroups,
setgid, setuid, getuid, geteuid, clearenv, setenv, fork, waitpid, chdir,
execvp) are modelled by an explicit oracle (`ChildWorld` / `MainWorld`)
supplying each call's outcome, and the program's control flow is embedded
as a function from that oracle to a trace of events plus an exit status.
-/

set_option autoImplicit false
set_option maxRecDepth 8192

/-- Embeds `#define MAX_ENV_VARS 100` (setuid_runner.c line 29). -/
def MAX_ENV_VARS : Nat := 100

/-- Embeds `#define MAX_ENV_VAR_LEN 1024` (setuid_runner.c line 30). -/
def MAX_ENV_VAR_LEN : Nat := 1024

/-- Embeds the `allowed_commands` table (setuid_runner.c lines 33-35). -/
def allowed_commands : List String :=
  ["bjobs", "bsub", "bkill", "bqueues", "bhosts", "lsload", "lshosts", "busers"]

/-- Embeds `num_allowed_commands` (setuid_runner.c line 36). -/
def num_allowed_commands : Nat := allowed_commands.length

/-- Embeds the `lsf_env_vars` table (setuid_runner.c lines 39-61), in source
order, duplicates included. -/
def lsf_env_vars : List String :=
  ["LSF_BINDIR", "LSF_LIBDIR", "LSF_SERVERDIR", "LSF_ENVDIR",
   "LSF_CONFDIR", "LSF_INCLUDEDIR", "LSF_MISC", "LSF_TOP",
   "LSF_VERSION", "LSF_LIM_PORT", "LSF_RES_PORT", "LSF_MBD_PORT",
   "LSF_SBD_PORT", "LSF_AUTH", "LSF_USE_HOSTEQUIV", "LSF_ROOT_REX",
   "LSF_REXD_CONNECT_TIMEOUT", "LSF_DEBUG_LIM", "LSF_DEBUG_RES",
   "LSF_DEBUG_SBD", "LSF_TIME_FORMAT", "LSF_TMPDIR", "LSF_LOGDIR",
   "LSF_LOG_MASK", "LSF_DISABLE_LSRUN", "LSF_RSH", "LSF_RCP",
   "LSF_GETPWNAM_RETRY", "LSF_GETPWNAM_TIMEOUT", "LSF_UNIT_FOR_LIMITS",
   "LSF_HPC_EXTENSIONS", "LSF_STRIP_DOMAIN", "LSF_MASTER_LIST",
   "LSF_SERVER_HOSTS", "LSB_CONFDIR", "LSB_SHAREDIR", "LSB_DEFAULTPROJECT",
   "LSB_DEFAULTQUEUE", "LSB_HOSTS", "LSB_MCPU_HOSTS", "LSB_SHAREDIR",
   "LSB_SUBK_SHOW_EXEC_HOST", "LSB_NTASKS", "LSB_NTASKS_PARALLEL",
   "LSB_QUEUE", "LSB_BATCH", "LSB_JOBID", "LSB_JOBINDEX", "LSB_HOSTS",
   "LSB_MCPU_HOSTS", "LSB_DJOB_HOSTFILE", "LSB_DJOB_RANKFILE",
   "LSB_DJOB_NUMPROC", "LSB_EFFECTIVE_RSRCREQ", "LSB_SUB_HOST",
   "LSB_EXEC_CLUSTER", "LSB_SUB_CLUSTER", "LSB_INTERACTIVE",
   "LSB_JOBFILENAME", "LSB_OUTPUTFILE", "LSB_ERRORFILE", "LSB_INPUTFILE",
   "LSB_CHKFILENAME", "LSB_RESTART", "LSB_RESTART_CMD", "LSB_CHKPNT_METHOD",
   "LSB_CHKPNT_DIR", "LSB_CHKPNT_PERIOD", "LSB_JOBPGIDS", "LSB_JOBPIDS",
   "LSB_BIND_JOB", "LSB_BIND_CPU_LIST", "LSB_BIND_MEM_LIST",
   "LSB_AFFINITY_HOSTFILE", "LSB_PJL_TASK_GEOMETRY"]

/-- Embeds `num_lsf_env_vars` (setuid_runner.c line 62). -/
def num_lsf_env_vars : Nat := lsf_env_vars.length

/-- Embeds `struct passwd` as the fields the program reads: `pw_uid`,
`pw_gid`, `pw_dir`, `pw_shell`. -/
structure Passwd where
  pw_uid : Nat
  pw_gid : Nat
  pw_dir : String
  pw_shell : String
deriving DecidableEq

/-- Embeds `struct env_var` (setuid_runner.c lines 65-68): a preserved
name/value pair.  The fixed 1024-byte buffers are modelled by the
truncation applied on every store (`strncpyTrunc`). -/
structure env_var where
  name : String
  value : String
deriving DecidableEq

/-- Embeds `strncpy(dst, src, MAX_ENV_VAR_LEN - 1)` followed by forced NUL
termination at index `MAX_ENV_VAR_LEN - 1`: the stored string is the first
`MAX_ENV_VAR_LEN - 1` characters of the source. -/
def strncpyTrunc (s : String) : String :=
  String.mk (s.data.take (MAX_ENV_VAR_LEN - 1))

/-- A process environment: an association list of name/value pairs with
first-match lookup, as maintained by libc `setenv`/`getenv`. -/
def EnvMap : Type := List (String × String)

/-- Embeds libc `getenv`: value of the first binding of `n`, if any. -/
def getenv_m : EnvMap → String → Option String
  | [], _ => none
  | p :: e, n => if p.1 = n then some p.2 else getenv_m e n

/-- Embeds libc `setenv` with overwrite 1: replace the first binding of
`n` if present, else append a new binding. -/
def setenv_m : EnvMap → String → String → EnvMap
  | [], n, v => [(n, v)]
  | p :: e, n, v => if p.1 = n then (n, v) :: e else p :: setenv_m e n v

/-- Embeds `is_valid_username` (setuid_runner.c lines 71-73): non-NULL and
`strlen > 0`.  `argv` strings are never NULL, so only the length check
remains. -/
def is_valid_username (username : String) : Bool :=
  username.length > 0

/-- Embeds the `strrchr`-based base-name extraction in `is_allowed_command`
(setuid_runner.c lines 79-85): the suffix after the last `/`, or the whole
string when no `/` occurs. -/
def cmd_basename (command : String) : String :=
  String.mk ((command.data.reverse.takeWhile (fun c => c ≠ '/')).reverse)

/-- Embeds `is_allowed_command` (setuid_runner.c lines 76-93): the base
name must `strcmp`-equal one of the `allowed_commands` entries. -/
def is_allowed_command (command : String) : Bool :=
  allowed_commands.any (fun c => cmd_basename command == c)

/-- Spec-side reading of the command check ("the substring after the last
slash, or the whole string when no slash is present"), written as a direct
left fold that restarts the segment at every slash.  Compared against
`cmd_basename` in claim C3. -/
def specLastSegment (s : String) : String :=
  String.mk (s.data.foldl (fun acc c => if c = '/' then [] else acc ++ [c]) [])

/-- One step of the preservation loop body (setuid_runner.c lines 100-109):
append the truncated name/value pair when the variable is set and the
capacity check `*num_preserved < MAX_ENV_VARS` passes. -/
def preserveStep (env : EnvMap) (acc : List env_var) (nm : String) : List env_var :=
  if acc.length < MAX_ENV_VARS then
    match getenv_m env nm with
    | some v => acc ++ [⟨strncpyTrunc nm, strncpyTrunc v⟩]
    | none => acc
  else acc

/-- Embeds `preserve_lsf_environment` (setuid_runner.c lines 96-122): walk
the `lsf_env_vars` table, then also preserve `PATH`; always return 0. -/
def preserve_lsf_environment (env : EnvMap) : Int × List env_var :=
  match getenv_m env "PATH" with
  | some v =>
    if (lsf_env_vars.foldl (preserveStep env) []).length < MAX_ENV_VARS then
      (0, lsf_env_vars.foldl (preserveStep env) [] ++ [⟨"PATH", strncpyTrunc v⟩])
    else
      (0, lsf_env_vars.foldl (preserveStep env) [])
  | none => (0, lsf_env_vars.foldl (preserveStep env) [])

/-- Observable events of one program run: syscalls issued and stderr
diagnostics written, in program order.  Privilege-transition events carry
the arguments the program passes. -/
inductive Ev where
  | msg (s : String)
  | checkUsernameE
  | checkCommandE
  | captureE
  | lookupE
  | forkE
  | initgroupsE (username : String) (gid : Nat)
  | setgidE (gid : Nat)
  | setuidE (uid : Nat)
  | verifyE
  | clearenvE
  | setenvE (n v : String)
  | chdirE (dir : String)
  | execE (cmd : String)
  | waitE
deriving DecidableEq

/-- Outcomes the oracle can report for the child's `waitpid` status, as
classified by `WIFEXITED` / `WIFSIGNALED`. -/
inductive WaitStatus where
  | exited (code : Nat)
  | signaled (sig : Nat)
  | other
deriving DecidableEq

/-- Embeds the parent's status translation (setuid_runner.c lines 263-271):
normal exit passes the code through, a signal becomes 128 + signal number,
anything else becomes 1. -/
def wait_status_to_exit : WaitStatus → Nat
  | .exited c => c
  | .signaled s => 128 + s
  | .other => 1

/-- Oracle for the child-side syscalls: whether each call succeeds, and the
uids observed after the `setuid` call. -/
structure ChildWorld where
  initgroups_ok : Bool
  setgid_ok : Bool
  setuid_ok : Bool
  uid_after : Nat
  euid_after : Nat
  clearenv_ok : Bool
  setenv_ok : String → String → Bool
  chdir_ok : Bool
  exec_ok : Bool

/-- Embeds the default PATH set when PATH was not preserved
(setuid_runner.c line 152). -/
def default_path : String := "/usr/local/lsf/bin:/usr/bin:/bin:/usr/local/bin"

/-- Embeds the restore loop of `setup_user_environment` (setuid_runner.c
lines 143-148): set each preserved variable in order, aborting with -1
(here `none`) on the first failing `setenv`. -/
def restore_vars (w : ChildWorld) : List env_var → EnvMap → List Ev × Option EnvMap
  | [], e => ([], some e)
  | v :: rest, e =>
    if w.setenv_ok v.name v.value then
      let r := restore_vars w rest (setenv_m e v.name v.value)
      (Ev.setenvE v.name v.value :: r.1, r.2)
    else
      ([Ev.setenvE v.name v.value,
        Ev.msg "Failed to restore environment variable"], none)

/-- The environment after the four essential `setenv` calls
(setuid_runner.c lines 134-137), starting from the cleared environment. -/
def essential_env (username : String) (pwd : Passwd) : EnvMap :=
  setenv_m (setenv_m (setenv_m (setenv_m [] "USER" username)
    "LOGNAME" username) "HOME" pwd.pw_dir) "SHELL" pwd.pw_shell

/-- Trace of the `clearenv` call and the four essential `setenv` calls. -/
def essential_trace (username : String) (pwd : Passwd) : List Ev :=
  [Ev.clearenvE, Ev.setenvE "USER" username, Ev.setenvE "LOGNAME" username,
   Ev.setenvE "HOME" pwd.pw_dir, Ev.setenvE "SHELL" pwd.pw_shell]

/-- Embeds `setup_user_environment` (setuid_runner.c lines 125-159):
`clearenv`, then USER/LOGNAME/HOME/SHELL (short-circuiting on the first
failure), then the preserved variables, then the default PATH when PATH is
still unset.  Returns the trace of calls and `some` final environment on
success, `none` where the C function returns -1. -/
def setup_user_environment (w : ChildWorld) (username : String) (pwd : Passwd)
    (preserved : List env_var) : List Ev × Option EnvMap :=
  if ¬ w.clearenv_ok then
    ([Ev.clearenvE, Ev.msg "Failed to clear environment"], none)
  else if ¬ w.setenv_ok "USER" username then
    ([Ev.clearenvE, Ev.setenvE "USER" username,
      Ev.msg "Failed to set environment variables"], none)
  else if ¬ w.setenv_ok "LOGNAME" username then
    ([Ev.clearenvE, Ev.setenvE "USER" username, Ev.setenvE "LOGNAME" username,
      Ev.msg "Failed to set environment variables"], none)
  else if ¬ w.setenv_ok "HOME" pwd.pw_dir then
    ([Ev.clearenvE, Ev.setenvE "USER" username, Ev.setenvE "LOGNAME" username,
      Ev.setenvE "HOME" pwd.pw_dir,
      Ev.msg "Failed to set environment variables"], none)
  else if ¬ w.setenv_ok "SHELL" pwd.pw_shell then
    ([Ev.clearenvE, Ev.setenvE "USER" username, Ev.setenvE "LOGNAME" username,
      Ev.setenvE "HOME" pwd.pw_dir, Ev.setenvE "SHELL" pwd.pw_shell,
      Ev.msg "Failed to set environment variables"], none)
  else
    match (restore_vars w preserved (essential_env username pwd)).2 with
    | none =>
      (essential_trace username pwd ++
        (restore_vars w preserved (essential_env username pwd)).1, none)
    | some e5 =>
      match getenv_m e5 "PATH" with
      | some _ =>
        (essential_trace username pwd ++
          (restore_vars w preserved (essential_env username pwd)).1, some e5)
      | none =>
        if w.setenv_ok "PATH" default_path then
          (essential_trace username pwd ++
            (restore_vars w preserved (essential_env username pwd)).1 ++
            [Ev.setenvE "PATH" default_path],
           some (setenv_m e5 "PATH" default_path))
        else
          (essential_trace username pwd ++
            (restore_vars w preserved (essential_env username pwd)).1 ++
            [Ev.setenvE "PATH" default_path,
             Ev.msg "Failed to set default PATH"], none)

/-- What becomes of the child process: `exit(code)`, or its image replaced
by `execvp` with the rebuilt environment. -/
inductive ChildOutcome where
  | exited (code : Nat)
  | replaced (cmd : String) (env : EnvMap)

/-- Embeds the child branch of `main` (setuid_runner.c lines 209-254):
initgroups, setgid, setuid, the uid/euid verification, environment
rebuild, best-effort chdir, and execvp. -/
def run_child (w : ChildWorld) (username command : String) (pwd : Passwd)
    (preserved : List env_var) : List Ev × ChildOutcome :=
  if ¬ w.initgroups_ok then
    ([Ev.initgroupsE username pwd.pw_gid, Ev.msg "initgroups failed"], .exited 1)
  else if ¬ w.setgid_ok then
    ([Ev.initgroupsE username pwd.pw_gid, Ev.setgidE pwd.pw_gid,
      Ev.msg "setgid failed"], .exited 1)
  else if ¬ w.setuid_ok then
    ([Ev.initgroupsE username pwd.pw_gid, Ev.setgidE pwd.pw_gid,
      Ev.setuidE pwd.pw_uid, Ev.msg "setuid failed"], .exited 1)
  else if w.uid_after ≠ pwd.pw_uid ∨ w.euid_after ≠ pwd.pw_uid then
    ([Ev.initgroupsE username pwd.pw_gid, Ev.setgidE pwd.pw_gid,
      Ev.setuidE pwd.pw_uid, Ev.verifyE,
      Ev.msg "Failed to change to user"], .exited 1)
  else
    match (setup_user_environment w username pwd preserved).2 with
    | none =>
      ([Ev.initgroupsE username pwd.pw_gid, Ev.setgidE pwd.pw_gid,
        Ev.setuidE pwd.pw_uid, Ev.verifyE] ++
        (setup_user_environment w username pwd preserved).1, .exited 1)
    | some e =>
      if w.exec_ok then
        ([Ev.initgroupsE username pwd.pw_gid, Ev.setgidE pwd.pw_gid,
          Ev.setuidE pwd.pw_uid, Ev.verifyE] ++
          (setup_user_environment w username pwd preserved).1 ++
          (if w.chdir_ok then [Ev.chdirE pwd.pw_dir]
           else [Ev.chdirE pwd.pw_dir,
             Ev.msg "Warning: Could not change to home directory"]) ++
          [Ev.execE command], .replaced command e)
      else
        ([Ev.initgroupsE username pwd.pw_gid, Ev.setgidE pwd.pw_gid,
          Ev.setuidE pwd.pw_uid, Ev.verifyE] ++
          (setup_user_environment w username pwd preserved).1 ++
          (if w.chdir_ok then [Ev.chdirE pwd.pw_dir]
           else [Ev.chdirE pwd.pw_dir,
             Ev.msg "Warning: Could not change to home directory"]) ++
          [Ev.execE command, Ev.msg "execvp failed"], .exited 1)

/-- Oracle for the parent-side syscalls: the environment at startup, the
system identity directory (`getpwnam`), whether `fork` and `waitpid`
succeed, an optional externally caused termination status for the child
(e.g. a signal), the status of the exec'd program when `execvp` succeeds,
and the child-side oracle. -/
structure MainWorld where
  env : EnvMap
  pwnam : String → Option Passwd
  fork_ok : Bool
  wait_ok : Bool
  interrupt : Option WaitStatus
  exec_status : WaitStatus
  child : ChildWorld

/-- The `waitpid` status the parent observes: an external interruption if
one occurred, otherwise the status following from the child's own outcome
(its `exit` code, or the exec'd program's status). -/
def observed_status (w : MainWorld) : ChildOutcome → WaitStatus
  | .exited c =>
    match w.interrupt with
    | some ws => ws
    | none => WaitStatus.exited c
  | .replaced _ _ =>
    match w.interrupt with
    | some ws => ws
    | none => w.exec_status

/-- Result of one run of the program: the event trace, the launcher's own
exit code, and the child status the parent observed (when it got that
far). -/
structure RunResult where
  trace : List Ev
  exit : Nat
  status : Option WaitStatus
deriving DecidableEq

/-- Embeds `main` (setuid_runner.c lines 161-273): usage check, policy
gate, environment capture, identity lookup, fork, the child sequence, and
the parent's wait/status translation.  The trace lists the events of the
whole process tree in program order (the parent blocks in `waitpid` for
the child's entire lifetime, so child events precede the wait return). -/
def main_run (argv : List String) (w : MainWorld) : RunResult :=
  match argv with
  | _prog :: username :: command :: _rest =>
    if is_valid_username username = false then
      RunResult.mk [Ev.checkUsernameE, Ev.msg "Username cannot be empty"] 1 none
    else if is_allowed_command command = false then
      RunResult.mk [Ev.checkUsernameE, Ev.checkCommandE,
        Ev.msg "Command not allowed"] 1 none
    else if (preserve_lsf_environment w.env).1 ≠ 0 then
      RunResult.mk [Ev.checkUsernameE, Ev.checkCommandE, Ev.captureE,
        Ev.msg "Failed to preserve environment variables"] 1 none
    else
      match w.pwnam username with
      | none =>
        RunResult.mk [Ev.checkUsernameE, Ev.checkCommandE, Ev.captureE,
          Ev.lookupE, Ev.msg "User not found"] 1 none
      | some pwd =>
        if w.fork_ok = false then
          RunResult.mk [Ev.checkUsernameE, Ev.checkCommandE, Ev.captureE,
            Ev.lookupE, Ev.forkE, Ev.msg "fork failed"] 1 none
        else
          if w.wait_ok = false then
            RunResult.mk ([Ev.checkUsernameE, Ev.checkCommandE, Ev.captureE,
              Ev.lookupE, Ev.forkE] ++
              (run_child w.child username command pwd
                (preserve_lsf_environment w.env).2).1 ++
              [Ev.waitE, Ev.msg "waitpid failed"]) 1 none
          else
            RunResult.mk ([Ev.checkUsernameE, Ev.checkCommandE, Ev.captureE,
              Ev.lookupE, Ev.forkE] ++
              (run_child w.child username command pwd
                (preserve_lsf_environment w.env).2).1 ++ [Ev.waitE])
              (wait_status_to_exit (observed_status w
                (run_child w.child username command pwd
                  (preserve_lsf_environment w.env).2).2))
              (some (observed_status w
                (run_child w.child username command pwd
                  (preserve_lsf_environment w.env).2).2))
  | _ =>
    RunResult.mk [Ev.msg "Usage: setuid_runner username command args"] 1 none

/-- Recognizes the four privilege-transition events. -/
def isPrivEv : Ev → Bool
  | .initgroupsE _ _ => true
  | .setgidE _ => true
  | .setuidE _ => true
  | .verifyE => true
  | _ => false

/-- Recognizes a process-image-replacement event. -/
def isExecEv : Ev → Bool
  | .execE _ => true
  | _ => false

/-- Event `a` occurs strictly before some occurrence of `b` in `tr`. -/
def occursBefore (a b : Ev) (tr : List Ev) : Prop :=
  ∃ l r, tr = l ++ b :: r ∧ a ∈ l

/-- Value of the last entry named `n` in a preserved-variable list: the
binding that is in force after all entries are restored in order. -/
def lookupLast : List env_var → String → Option String
  | [], _ => none
  | v :: l, n =>
    match lookupLast l n with
    | some w => some w
    | none => if v.name = n then some v.value else none

/-- Restoring a preserved list on top of `e`, as pure environment data. -/
def restore_env (l : List env_var) (e : EnvMap) : EnvMap :=
  l.foldl (fun acc v => setenv_m acc v.name v.value) e

theorem getenv_setenv_m (e : EnvMap) (n v m : String) :
    getenv_m (setenv_m e n v) m = if n = m then some v else getenv_m e m := by
  induction e with
  | nil => simp [setenv_m, getenv_m]
  | cons p e ih =>
    by_cases h : p.1 = n
    · by_cases h2 : n = m
      · simp [setenv_m, getenv_m, h, h2]
      · have hpm : ¬ p.1 = m := fun hc => h2 (h.symm.trans hc)
        simp [setenv_m, getenv_m, h, h2, hpm]
    · by_cases h2 : p.1 = m
      · have hnm : ¬ n = m := fun hc => h (h2.trans hc.symm)
        have hmn : ¬ m = n := fun hc => hnm hc.symm
        simp [setenv_m, getenv_m, h, h2, hnm, hmn]
      · simp [setenv_m, getenv_m, h, h2, ih]

theorem getenv_restore_env_none (l : List env_var) (e : EnvMap) (n : String)
    (h : lookupLast l n = none) :
    getenv_m (restore_env l e) n = getenv_m e n := by
  induction l generalizing e with
  | nil => simp [restore_env]
  | cons v l ih =>
    have hl : lookupLast l n = none := by
      unfold lookupLast at h
      cases hc : lookupLast l n with
      | none => rfl
      | some w => rw [hc] at h; exact absurd h (by simp)
    have hv : ¬ v.name = n := by
      unfold lookupLast at h
      rw [hl] at h
      by_cases hvn : v.name = n
      · rw [if_pos hvn] at h; exact absurd h (by simp)
      · exact hvn
    have := ih (setenv_m e v.name v.value) hl
    unfold restore_env at this ⊢
    simp only [List.foldl_cons]
    rw [this, getenv_setenv_m, if_neg hv]

theorem getenv_restore_env_some (l : List env_var) (e : EnvMap) (n w : String)
    (h : lookupLast l n = some w) :
    getenv_m (restore_env l e) n = some w := by
  induction l generalizing e with
  | nil => simp [lookupLast] at h
  | cons v l ih =>
    unfold lookupLast at h
    cases hc : lookupLast l n with
    | some w2 =>
      rw [hc] at h
      simp only [Option.some.injEq] at h
      subst h
      exact ih (setenv_m e v.name v.value) hc
    | none =>
      rw [hc] at h
      by_cases hvn : v.name = n
      · rw [if_pos hvn] at h
        simp only [Option.some.injEq] at h
        subst h
        unfold restore_env
        simp only [List.foldl_cons]
        have := getenv_restore_env_none l (setenv_m e v.name v.value) n hc
        unfold restore_env at this
        rw [this, getenv_setenv_m, if_pos hvn]
      · rw [if_neg hvn] at h
        exact absurd h (by simp)

theorem lookupLast_eq_none (l : List env_var) (n : String)
    (h : ∀ v ∈ l, v.name ≠ n) : lookupLast l n = none := by
  induction l with
  | nil => rfl
  | cons v l ih =>
    unfold lookupLast
    rw [ih (fun x hx => h x (List.mem_cons_of_mem v hx))]
    rw [if_neg (h v (List.mem_cons_self v l))]

theorem restore_vars_some (w : ChildWorld) (l : List env_var) (e : EnvMap)
    (e2 : EnvMap) (h : (restore_vars w l e).2 = some e2) :
    e2 = restore_env l e := by
  induction l generalizing e with
  | nil =>
    simp [restore_vars] at h
    simp [restore_env, h]
  | cons v l ih =>
    by_cases hok : w.setenv_ok v.name v.value
    · simp only [restore_vars, if_pos hok] at h
      have := ih (setenv_m e v.name v.value) h
      simpa [restore_env] using this
    · simp [restore_vars, if_neg hok] at h

/-- The diagnostic strings the child can write to stderr. -/
def child_msgs : List String :=
  ["initgroups failed", "setgid failed", "setuid failed",
   "Failed to change to user", "Failed to clear environment",
   "Failed to set environment variables",
   "Failed to restore environment variable", "Failed to set default PATH",
   "Warning: Could not change to home directory", "execvp failed"]

theorem restore_vars_events (w : ChildWorld) (l : List env_var) (e : EnvMap) :
    ∀ ev ∈ (restore_vars w l e).1,
      (∃ n v, ev = Ev.setenvE n v) ∨
        ev = Ev.msg "Failed to restore environment variable" := by
  induction l generalizing e with
  | nil => simp [restore_vars]
  | cons v l ih =>
    intro ev hev
    by_cases hok : w.setenv_ok v.name v.value
    · simp only [restore_vars, if_pos hok, List.mem_cons] at hev
      rcases hev with h | h
      · exact Or.inl ⟨v.name, v.value, h⟩
      · exact ih (setenv_m e v.name v.value) ev h
    · simp only [restore_vars, if_neg hok, List.mem_cons] at hev
      rcases hev with h | h | h
      · exact Or.inl ⟨v.name, v.value, h⟩
      · exact Or.inr h
      · cases h

theorem setup_user_environment_event_shape (w : ChildWorld) (username : String)
    (pwd : Passwd) (preserved : List env_var) :
    ∀ ev ∈ (setup_user_environment w username pwd preserved).1,
      ev = Ev.clearenvE ∨ (∃ n v, ev = Ev.setenvE n v) ∨
        (∃ s, ev = Ev.msg s ∧ s ∈ child_msgs) := by
  intro ev hev
  have hre := restore_vars_events w preserved (essential_env username pwd)
  unfold setup_user_environment at hev
  iterate 12 (all_goals try split at hev)
  all_goals
    simp only [essential_trace, List.mem_append, List.mem_cons,
      List.not_mem_nil, or_false] at hev
  iterate 8 (all_goals try rcases hev with hev | hev)
  all_goals
    first
    | (rcases hre ev hev with ⟨n, v, hh⟩ | hh <;> subst hh <;>
        simp [child_msgs])
    | simp [child_msgs]

theorem setup_user_environment_no_priv_exec (w : ChildWorld) (username : String)
    (pwd : Passwd) (preserved : List env_var) :
    ∀ ev ∈ (setup_user_environment w username pwd preserved).1,
      isPrivEv ev = false ∧ isExecEv ev = false := by
  intro ev hev
  rcases setup_user_environment_event_shape w username pwd preserved ev hev with
    h | ⟨n, v, h⟩ | ⟨s, h, -⟩ <;> subst h <;> exact ⟨rfl, rfl⟩

theorem preserveStep_len (env : EnvMap) (acc : List env_var) (nm : String) :
    (preserveStep env acc nm).length ≤ acc.length + 1 := by
  unfold preserveStep
  split
  · cases getenv_m env nm <;> simp
  · simp

theorem preserve_foldl_len (env : EnvMap) :
    ∀ (nms : List String) (acc : List env_var),
      (nms.foldl (preserveStep env) acc).length ≤ acc.length + nms.length := by
  intro nms
  induction nms with
  | nil => simp
  | cons nm nms ih =>
    intro acc
    have h1 := preserveStep_len env acc nm
    have h2 := ih (preserveStep env acc nm)
    simp only [List.foldl_cons, List.length_cons]
    omega

theorem preserve_foldl_mem (env : EnvMap) :
    ∀ (nms : List String) (acc : List env_var) (v : env_var),
      v ∈ nms.foldl (preserveStep env) acc →
      v ∈ acc ∨ ∃ nm ∈ nms, ∃ s, getenv_m env nm = some s ∧
        v = ⟨strncpyTrunc nm, strncpyTrunc s⟩ := by
  intro nms
  induction nms with
  | nil =>
    intro acc v h
    exact Or.inl (by simpa using h)
  | cons nm nms ih =>
    intro acc v h
    simp only [List.foldl_cons] at h
    rcases ih (preserveStep env acc nm) v h with h2 | ⟨nm2, hnm2, s, hs, hv⟩
    · unfold preserveStep at h2
      split at h2
      · cases hg : getenv_m env nm with
        | some s =>
          rw [hg] at h2
          rcases List.mem_append.mp h2 with h3 | h3
          · exact Or.inl h3
          · refine Or.inr ⟨nm, List.mem_cons_self nm nms, s, hg, ?_⟩
            simpa using h3
        | none =>
          rw [hg] at h2
          exact Or.inl h2
      · exact Or.inl h2
    · exact Or.inr ⟨nm2, List.mem_cons_of_mem nm hnm2, s, hs, hv⟩

theorem preserve_foldl_mem_mono (env : EnvMap) :
    ∀ (nms : List String) (acc : List env_var) (v : env_var),
      v ∈ acc → v ∈ nms.foldl (preserveStep env) acc := by
  intro nms
  induction nms with
  | nil =>
    intro acc v h
    simpa using h
  | cons nm nms ih =>
    intro acc v h
    simp only [List.foldl_cons]
    apply ih
    unfold preserveStep
    split
    · cases getenv_m env nm <;> simp [h]
    · exact h

theorem preserve_foldl_copied (env : EnvMap) :
    ∀ (nms : List String) (acc : List env_var) (nm : String) (s : String),
      nm ∈ nms → getenv_m env nm = some s →
      acc.length + nms.length ≤ MAX_ENV_VARS →
      (⟨strncpyTrunc nm, strncpyTrunc s⟩ : env_var) ∈
        nms.foldl (preserveStep env) acc := by
  intro nms
  induction nms with
  | nil =>
    intro acc nm s h
    cases h
  | cons nm2 nms ih =>
    intro acc nm s hmem hg hlen
    simp only [List.length_cons] at hlen
    simp only [List.foldl_cons]
    rcases List.mem_cons.mp hmem with heq | hmem2
    · subst heq
      have hacc : acc.length < MAX_ENV_VARS := by omega
      apply preserve_foldl_mem_mono
      unfold preserveStep
      rw [if_pos hacc, hg]
      simp
    · apply ih (preserveStep env acc nm2) nm s hmem2 hg
      have := preserveStep_len env acc nm2
      omega

theorem lsf_env_vars_length : lsf_env_vars.length = 75 := rfl

theorem preserve_ret_zero (env : EnvMap) :
    (preserve_lsf_environment env).1 = 0 := by
  unfold preserve_lsf_environment
  split
  · split <;> rfl
  · rfl

theorem preserve_len_le_76 (env : EnvMap) :
    (preserve_lsf_environment env).2.length ≤ 76 := by
  have h75 := preserve_foldl_len env lsf_env_vars []
  rw [lsf_env_vars_length] at h75
  simp only [List.length_nil] at h75
  unfold preserve_lsf_environment
  split
  · split
    · dsimp only
      simp only [List.length_append, List.length_cons, List.length_nil]
      omega
    · dsimp only
      omega
  · dsimp only
    omega

theorem preserve_mem_char (env : EnvMap) (v : env_var)
    (h : v ∈ (preserve_lsf_environment env).2) :
    (∃ nm ∈ lsf_env_vars, ∃ s, getenv_m env nm = some s ∧
      v = ⟨strncpyTrunc nm, strncpyTrunc s⟩) ∨
    (∃ s, getenv_m env "PATH" = some s ∧ v = ⟨"PATH", strncpyTrunc s⟩) := by
  unfold preserve_lsf_environment at h
  split at h
  · next s hg =>
    split at h
    · simp only at h
      rcases List.mem_append.mp h with h2 | h2
      · rcases preserve_foldl_mem env lsf_env_vars [] v h2 with h3 | h3
        · simp at h3
        · exact Or.inl h3
      · exact Or.inr ⟨s, hg, by simpa using h2⟩
    · simp only at h
      rcases preserve_foldl_mem env lsf_env_vars [] v h with h3 | h3
      · simp at h3
      · exact Or.inl h3
  · simp only at h
    rcases preserve_foldl_mem env lsf_env_vars [] v h with h3 | h3
    · simp at h3
    · exact Or.inl h3

theorem strncpyTrunc_lsf_id : ∀ nm ∈ lsf_env_vars, strncpyTrunc nm = nm := by
  decide

theorem preserve_entry_sound (env : EnvMap) (v : env_var)
    (h : v ∈ (preserve_lsf_environment env).2) :
    ∃ s, getenv_m env v.name = some s ∧ v.value = strncpyTrunc s := by
  rcases preserve_mem_char env v h with ⟨nm, hnm, s, hg, hv⟩ | ⟨s, hg, hv⟩
  · subst hv
    refine ⟨s, ?_, rfl⟩
    simpa [strncpyTrunc_lsf_id nm hnm] using hg
  · subst hv
    exact ⟨s, hg, rfl⟩

theorem preserve_name_mem (env : EnvMap) (v : env_var)
    (h : v ∈ (preserve_lsf_environment env).2) :
    v.name ∈ lsf_env_vars ∨ v.name = "PATH" := by
  rcases preserve_mem_char env v h with ⟨nm, hnm, s, hg, hv⟩ | ⟨s, hg, hv⟩
  · subst hv
    simp only
    rw [strncpyTrunc_lsf_id nm hnm]
    exact Or.inl hnm
  · subst hv
    exact Or.inr rfl

theorem lookupLast_append_single (l : List env_var) (v : env_var) (n : String) :
    lookupLast (l ++ [v]) n =
      if v.name = n then some v.value else lookupLast l n := by
  induction l with
  | nil => simp [lookupLast]
  | cons u l ih =>
    simp only [List.cons_append]
    unfold lookupLast
    rw [ih]
    by_cases hv : v.name = n
    · simp [hv]
    · simp [hv]

theorem preserve_path_entry (env : EnvMap) (s : String)
    (hg : getenv_m env "PATH" = some s) :
    (preserve_lsf_environment env).2 =
      lsf_env_vars.foldl (preserveStep env) [] ++ [⟨"PATH", strncpyTrunc s⟩] := by
  have h75 := preserve_foldl_len env lsf_env_vars []
  rw [lsf_env_vars_length] at h75
  simp only [List.length_nil] at h75
  unfold preserve_lsf_environment
  rw [hg]
  dsimp only
  rw [if_pos (show (lsf_env_vars.foldl (preserveStep env) []).length <
    MAX_ENV_VARS by unfold MAX_ENV_VARS; omega)]

theorem preserve_lookupLast_reserved (env : EnvMap) (n : String)
    (hn : n ∉ lsf_env_vars) (hp : n ≠ "PATH") :
    lookupLast (preserve_lsf_environment env).2 n = none := by
  apply lookupLast_eq_none
  intro v hv hcon
  rcases preserve_name_mem env v hv with h | h
  · exact hn (hcon ▸ h)
  · exact hp (hcon ▸ h)

theorem preserve_lookupLast_path (env : EnvMap) (s : String)
    (hg : getenv_m env "PATH" = some s) :
    lookupLast (preserve_lsf_environment env).2 "PATH" = some (strncpyTrunc s) := by
  rw [preserve_path_entry env s hg, lookupLast_append_single]
  simp

theorem preserve_lookupLast_path_none (env : EnvMap)
    (hg : getenv_m env "PATH" = none) :
    lookupLast (preserve_lsf_environment env).2 "PATH" = none := by
  apply lookupLast_eq_none
  intro v hv hcon
  rcases preserve_mem_char env v hv with ⟨nm, hnm, s, hgv, hveq⟩ | ⟨s, hgs, hveq⟩
  · subst hveq
    simp only at hcon
    rw [strncpyTrunc_lsf_id nm hnm] at hcon
    exact absurd (hcon ▸ hnm) (by decide)
  · rw [hgs] at hg
    cases hg

theorem essential_env_eq (username : String) (pwd : Passwd) :
    essential_env username pwd =
      [("USER", username), ("LOGNAME", username),
       ("HOME", pwd.pw_dir), ("SHELL", pwd.pw_shell)] := by
  simp [essential_env, setenv_m]

theorem getenv_essential_env (username : String) (pwd : Passwd) (n : String) :
    getenv_m (essential_env username pwd) n =
      if "USER" = n then some username
      else if "LOGNAME" = n then some username
      else if "HOME" = n then some pwd.pw_dir
      else if "SHELL" = n then some pwd.pw_shell
      else none := by
  rw [essential_env_eq]
  simp [getenv_m]

theorem setup_success_env (w : ChildWorld) (username : String) (pwd : Passwd)
    (preserved : List env_var) (e : EnvMap)
    (h : (setup_user_environment w username pwd preserved).2 = some e) :
    ((∃ s, lookupLast preserved "PATH" = some s) ∧
      e = restore_env preserved (essential_env username pwd)) ∨
    (lookupLast preserved "PATH" = none ∧
      e = setenv_m (restore_env preserved (essential_env username pwd))
        "PATH" default_path) := by
  have hePath : getenv_m (essential_env username pwd) "PATH" = none := by
    rw [getenv_essential_env]
    rfl
  unfold setup_user_environment at h
  split at h
  · simp at h
  split at h
  · simp at h
  split at h
  · simp at h
  split at h
  · simp at h
  split at h
  · simp at h
  split at h
  · simp at h
  next e5 hrv =>
  have he5 : e5 = restore_env preserved (essential_env username pwd) :=
    restore_vars_some w preserved (essential_env username pwd) e5 hrv
  split at h
  · next s hgs =>
    simp only at h
    cases h
    left
    refine ⟨⟨s, ?_⟩, he5⟩
    cases hc : lookupLast preserved "PATH" with
    | none =>
      have h2 := getenv_restore_env_none preserved
        (essential_env username pwd) "PATH" hc
      rw [← he5, hgs] at h2
      rw [hePath] at h2
      cases h2
    | some s2 =>
      have h2 := getenv_restore_env_some preserved
        (essential_env username pwd) "PATH" s2 hc
      rw [← he5, hgs] at h2
      cases h2
      rfl
  · next hgs =>
    have hlp : lookupLast preserved "PATH" = none := by
      cases hc : lookupLast preserved "PATH" with
      | none => rfl
      | some s2 =>
        have h2 := getenv_restore_env_some preserved
          (essential_env username pwd) "PATH" s2 hc
        rw [← he5, hgs] at h2
        cases h2
    split at h
    · simp only at h
      cases h
      right
      exact ⟨hlp, by rw [he5]⟩
    · simp at h

/-- C2: after a successful environment rebuild in the child, the process
environment contains exactly USER and LOGNAME (set to the username), HOME
and SHELL (from the resolved identity), every preserved allow-listed
variable captured from the original environment, and the default PATH only
when PATH was not among the preserved variables; nothing else from the
original environment is present. -/
theorem spec_C2_rebuilt_environment_exact (env0 : EnvMap) (w : ChildWorld)
    (username : String) (pwd : Passwd) (e : EnvMap)
    (h : (setup_user_environment w username pwd
      (preserve_lsf_environment env0).2).2 = some e) (n : String) :
    getenv_m e n =
      if n = "USER" ∨ n = "LOGNAME" then some username
      else if n = "HOME" then some pwd.pw_dir
      else if n = "SHELL" then some pwd.pw_shell
      else if n = "PATH" then
        some ((lookupLast (preserve_lsf_environment env0).2 "PATH").getD
          default_path)
      else lookupLast (preserve_lsf_environment env0).2 n := by
  have hres_some := getenv_restore_env_some (preserve_lsf_environment env0).2
    (essential_env username pwd)
  have hres_none := getenv_restore_env_none (preserve_lsf_environment env0).2
    (essential_env username pwd)
  rcases setup_success_env w username pwd (preserve_lsf_environment env0).2
    e h with ⟨⟨s, hs⟩, he⟩ | ⟨hnone, he⟩
  · subst he
    by_cases hU : n = "USER"
    · subst hU
      rw [hres_none "USER"
        (preserve_lookupLast_reserved env0 "USER" (by decide) (by decide)),
        getenv_essential_env]
      simp
    · by_cases hL : n = "LOGNAME"
      · subst hL
        rw [hres_none "LOGNAME"
          (preserve_lookupLast_reserved env0 "LOGNAME" (by decide) (by decide)),
          getenv_essential_env]
        simp
      · by_cases hH : n = "HOME"
        · subst hH
          rw [hres_none "HOME"
            (preserve_lookupLast_reserved env0 "HOME" (by decide) (by decide)),
            getenv_essential_env]
          simp
        · by_cases hS : n = "SHELL"
          · subst hS
            rw [hres_none "SHELL"
              (preserve_lookupLast_reserved env0 "SHELL" (by decide)
                (by decide)),
              getenv_essential_env]
            simp
          · by_cases hP : n = "PATH"
            · subst hP
              rw [hres_some "PATH" s hs]
              simp [hs]
            · cases hc : lookupLast (preserve_lsf_environment env0).2 n with
              | some v =>
                rw [hres_some n v hc]
                simp [hU, hL, hH, hS, hP, hc]
              | none =>
                rw [hres_none n hc, getenv_essential_env]
                have hU2 : ¬ ("USER" = n) := fun hx => hU hx.symm
                have hL2 : ¬ ("LOGNAME" = n) := fun hx => hL hx.symm
                have hH2 : ¬ ("HOME" = n) := fun hx => hH hx.symm
                have hS2 : ¬ ("SHELL" = n) := fun hx => hS hx.symm
                simp [hU, hL, hH, hS, hP, hU2, hL2, hH2, hS2, hc]
  · subst he
    rw [getenv_setenv_m]
    by_cases hP : n = "PATH"
    · subst hP
      simp [hnone]
    · have hP2 : ¬ ("PATH" = n) := fun hx => hP hx.symm
      rw [if_neg hP2]
      by_cases hU : n = "USER"
      · subst hU
        rw [hres_none "USER"
          (preserve_lookupLast_reserved env0 "USER" (by decide) (by decide)),
          getenv_essential_env]
        simp
      · by_cases hL : n = "LOGNAME"
        · subst hL
          rw [hres_none "LOGNAME"
            (preserve_lookupLast_reserved env0 "LOGNAME" (by decide)
              (by decide)),
            getenv_essential_env]
          simp
        · by_cases hH : n = "HOME"
          · subst hH
            rw [hres_none "HOME"
              (preserve_lookupLast_reserved env0 "HOME" (by decide)
                (by decide)),
              getenv_essential_env]
            simp
          · by_cases hS : n = "SHELL"
            · subst hS
              rw [hres_none "SHELL"
                (preserve_lookupLast_reserved env0 "SHELL" (by decide)
                  (by decide)),
                getenv_essential_env]
              simp
            · cases hc : lookupLast (preserve_lsf_environment env0).2 n with
              | some v =>
                rw [hres_some n v hc]
                simp [hU, hL, hH, hS, hP, hc]
              | none =>
                rw [hres_none n hc, getenv_essential_env]
                have hU2 : ¬ ("USER" = n) := fun hx => hU hx.symm
                have hL2 : ¬ ("LOGNAME" = n) := fun hx => hL hx.symm
                have hH2 : ¬ ("HOME" = n) := fun hx => hH hx.symm
                have hS2 : ¬ ("SHELL" = n) := fun hx => hS hx.symm
                simp [hU, hL, hH, hS, hP, hU2, hL2, hH2, hS2, hc]

theorem setup_filter_priv_nil (w : ChildWorld) (username : String)
    (pwd : Passwd) (preserved : List env_var) :
    (setup_user_environment w username pwd preserved).1.filter isPrivEv = [] := by
  rw [List.filter_eq_nil_iff]
  intro a ha
  simp [(setup_user_environment_no_priv_exec w username pwd preserved a ha).1]

/-- C1: in the child, the privilege transition performs, in order,
initgroups with the target's username and primary gid, setgid with the
target's primary gid, setuid with the target's uid, then the uid/euid
verification; any step failing, or the verification failing, makes the
child exit with status 1 before any environment-rebuild or exec event. -/
theorem spec_C1_child_privilege_transition (w : ChildWorld)
    (username command : String) (pwd : Passwd) (preserved : List env_var) :
    ((run_child w username command pwd preserved).1.filter isPrivEv <+:
      [Ev.initgroupsE username pwd.pw_gid, Ev.setgidE pwd.pw_gid,
       Ev.setuidE pwd.pw_uid, Ev.verifyE]) ∧
    ((w.initgroups_ok = false ∨ w.setgid_ok = false ∨ w.setuid_ok = false ∨
        w.uid_after ≠ pwd.pw_uid ∨ w.euid_after ≠ pwd.pw_uid) →
      (run_child w username command pwd preserved).2 = ChildOutcome.exited 1 ∧
      Ev.clearenvE ∉ (run_child w username command pwd preserved).1 ∧
      ∀ ev ∈ (run_child w username command pwd preserved).1,
        isExecEv ev = false) ∧
    ((w.initgroups_ok = true ∧ w.setgid_ok = true ∧ w.setuid_ok = true ∧
        w.uid_after = pwd.pw_uid ∧ w.euid_after = pwd.pw_uid) →
      (run_child w username command pwd preserved).1.filter isPrivEv =
        [Ev.initgroupsE username pwd.pw_gid, Ev.setgidE pwd.pw_gid,
         Ev.setuidE pwd.pw_uid, Ev.verifyE]) := by
  cases hig : w.initgroups_ok with
  | false =>
    refine ⟨?_, ?_, ?_⟩
    · simp only [run_child, hig]
      simp [isPrivEv]
    · intro _
      refine ⟨by simp [run_child, hig], by simp [run_child, hig], ?_⟩
      intro ev hev
      simp [run_child, hig] at hev
      rcases hev with h | h <;> subst h <;> rfl
    · rintro ⟨h1, -⟩
      cases h1
  | true =>
  cases htg : w.setgid_ok with
  | false =>
    refine ⟨?_, ?_, ?_⟩
    · simp only [run_child, hig, htg]
      simp [isPrivEv]
    · intro _
      refine ⟨by simp [run_child, hig, htg], by simp [run_child, hig, htg], ?_⟩
      intro ev hev
      simp [run_child, hig, htg] at hev
      rcases hev with h | h | h <;> subst h <;> rfl
    · rintro ⟨-, h1, -⟩
      cases h1
  | true =>
  cases htu : w.setuid_ok with
  | false =>
    refine ⟨?_, ?_, ?_⟩
    · simp only [run_child, hig, htg, htu]
      simp [isPrivEv]
    · intro _
      refine ⟨by simp [run_child, hig, htg, htu],
        by simp [run_child, hig, htg, htu], ?_⟩
      intro ev hev
      simp [run_child, hig, htg, htu] at hev
      rcases hev with h | h | h | h <;> subst h <;> rfl
    · rintro ⟨-, -, h1, -⟩
      cases h1
  | true =>
  by_cases hver : w.uid_after ≠ pwd.pw_uid ∨ w.euid_after ≠ pwd.pw_uid
  · have hrc : run_child w username command pwd preserved =
        ([Ev.initgroupsE username pwd.pw_gid, Ev.setgidE pwd.pw_gid,
          Ev.setuidE pwd.pw_uid, Ev.verifyE,
          Ev.msg "Failed to change to user"], ChildOutcome.exited 1) := by
      simp [run_child, hver, hig, htg, htu]
    refine ⟨?_, ?_, ?_⟩
    · rw [hrc]
      simp [isPrivEv]
    · intro _
      rw [hrc]
      refine ⟨rfl, by simp, ?_⟩
      intro ev hev
      simp at hev
      rcases hev with h | h | h | h | h <;> subst h <;> rfl
    · rintro ⟨-, -, -, h1, h2⟩
      rcases hver with h | h
      · exact absurd h1 h
      · exact absurd h2 h
  · have hfil := setup_filter_priv_nil w username pwd preserved
    have hshape :
        (run_child w username command pwd preserved).1.filter isPrivEv =
          [Ev.initgroupsE username pwd.pw_gid, Ev.setgidE pwd.pw_gid,
           Ev.setuidE pwd.pw_uid, Ev.verifyE] := by
      simp only [run_child, hig, htg, htu]
      rw [if_neg hver]
      rcases hsu : (setup_user_environment w username pwd preserved).2 with
        _ | e
      · simp [List.filter_append, hfil, isPrivEv]
      · cases hex : w.exec_ok with
        | true =>
          cases hch : w.chdir_ok with
          | true => simp [hex, hch, List.filter_append, hfil, isPrivEv]
          | false => simp [hex, hch, List.filter_append, hfil, isPrivEv]
        | false =>
          cases hch : w.chdir_ok with
          | true => simp [hex, hch, List.filter_append, hfil, isPrivEv]
          | false => simp [hex, hch, List.filter_append, hfil, isPrivEv]
    refine ⟨?_, ?_, fun _ => hshape⟩
    · rw [hshape]
    · rintro (h | h | h | h | h)
      · cases h
      · cases h
      · cases h
      · exact absurd (Or.inl h) hver
      · exact absurd (Or.inr h) hver

theorem run_child_event_shape (w : ChildWorld) (username command : String)
    (pwd : Passwd) (preserved : List env_var) :
    ∀ ev ∈ (run_child w username command pwd preserved).1,
      isPrivEv ev = true ∨ ev = Ev.clearenvE ∨ (∃ n v, ev = Ev.setenvE n v) ∨
      (∃ d, ev = Ev.chdirE d) ∨ (∃ c, ev = Ev.execE c) ∨
      (∃ s, ev = Ev.msg s ∧ s ∈ child_msgs) := by
  intro ev hev
  have hsu := setup_user_environment_event_shape w username pwd preserved
  unfold run_child at hev
  iterate 8 (all_goals try split at hev)
  all_goals
    simp only [List.mem_append, List.mem_cons, List.not_mem_nil,
      or_false] at hev
  iterate 10 (all_goals try rcases hev with hev | hev)
  all_goals
    first
    | (rcases hsu ev hev with h | ⟨n, v, h⟩ | ⟨s, h, hs⟩ <;> subst h <;>
        simp [isPrivEv] <;> exact hs)
    | simp [child_msgs, isPrivEv]

theorem run_child_no_capture_msg (w : ChildWorld) (username command : String)
    (pwd : Passwd) (preserved : List env_var) :
    Ev.msg "Failed to preserve environment variables" ∉
      (run_child w username command pwd preserved).1 := by
  intro hmem
  rcases run_child_event_shape w username command pwd preserved _ hmem with
    h | h | ⟨n, v, h⟩ | ⟨d, h⟩ | ⟨c, h⟩ | ⟨s, h, hs⟩
  · simp [isPrivEv] at h
  · cases h
  · cases h
  · cases h
  · cases h
  · cases h
    simp [child_msgs] at hs

theorem lastSegment_eq (l : List Char) :
    (l.reverse.takeWhile (fun c => c ≠ '/')).reverse =
      l.foldl (fun acc c => if c = '/' then [] else acc ++ [c]) [] := by
  induction l using List.reverseRecOn with
  | nil => rfl
  | append_singleton l c ih =>
    rw [List.reverse_append, List.foldl_append]
    simp only [List.reverse_singleton, List.singleton_append,
      List.takeWhile_cons, List.foldl_cons, List.foldl_nil]
    simp only [ne_eq, decide_not] at ih ⊢
    by_cases hc : c = '/'
    · simp [hc]
    · simp [hc, ih]

theorem cmd_basename_eq_spec (s : String) :
    cmd_basename s = specLastSegment s := by
  unfold cmd_basename specLastSegment
  rw [lastSegment_eq]

/-- C3: a command is accepted iff its final path segment (the substring
after the last slash, or the whole string when no slash is present) is an
exact, case-sensitive match for one of the eight allowed command names;
any non-matching command makes the process exit 1 before identity lookup,
fork, or any privilege change. -/
theorem spec_C3_command_check :
    (∀ command : String,
      is_allowed_command command = true ↔
        specLastSegment command ∈ allowed_commands) ∧
    allowed_commands.length = 8 ∧
    (∀ (prog username command : String) (rest : List String) (w : MainWorld),
      is_allowed_command command = false →
      (main_run (prog :: username :: command :: rest) w).exit = 1 ∧
      Ev.lookupE ∉ (main_run (prog :: username :: command :: rest) w).trace ∧
      Ev.forkE ∉ (main_run (prog :: username :: command :: rest) w).trace ∧
      ∀ ev ∈ (main_run (prog :: username :: command :: rest) w).trace,
        isPrivEv ev = false) := by
  refine ⟨?_, rfl, ?_⟩
  · intro command
    unfold is_allowed_command
    rw [cmd_basename_eq_spec]
    simp [List.any_eq_true]
  · intro prog username command rest w hcmd
    cases hval : is_valid_username username with
    | false =>
      refine ⟨by simp [main_run, hval], by simp [main_run, hval],
        by simp [main_run, hval], ?_⟩
      intro ev hev
      simp [main_run, hval] at hev
      rcases hev with h | h <;> subst h <;> rfl
    | true =>
      refine ⟨by simp [main_run, hval, hcmd], by simp [main_run, hval, hcmd],
        by simp [main_run, hval, hcmd], ?_⟩
      intro ev hev
      simp [main_run, hval, hcmd] at hev
      rcases hev with h | h | h <;> subst h <;> rfl

/-- C7: for an empty (or absent) username argument, the process writes a
diagnostic and exits 1 without performing the identity lookup and without
forking. -/
theorem spec_C7_empty_username :
    (∀ u : String, is_valid_username u = false ↔ u = "") ∧
    (∀ (prog username command : String) (rest : List String) (w : MainWorld),
      is_valid_username username = false →
      main_run (prog :: username :: command :: rest) w =
        RunResult.mk [Ev.checkUsernameE, Ev.msg "Username cannot be empty"]
          1 none ∧
      Ev.lookupE ∉ (main_run (prog :: username :: command :: rest) w).trace ∧
      Ev.forkE ∉ (main_run (prog :: username :: command :: rest) w).trace) ∧
    (∀ (argv : List String) (w : MainWorld), argv.length < 3 →
      (main_run argv w).exit = 1 ∧
      Ev.lookupE ∉ (main_run argv w).trace ∧
      Ev.forkE ∉ (main_run argv w).trace) := by
  refine ⟨?_, ?_, ?_⟩
  · intro u
    rcases u with ⟨_ | ⟨c, cs⟩⟩
    · simp [is_valid_username]
    · simp only [is_valid_username, String.length, String.ext_iff]
      simp
  · intro prog username command rest w hval
    exact ⟨by simp [main_run, hval], by simp [main_run, hval],
      by simp [main_run, hval]⟩
  · intro argv w hlen
    rcases argv with _ | ⟨a, _ | ⟨b, _ | ⟨c, rest⟩⟩⟩
    · exact ⟨rfl, by simp [main_run], by simp [main_run]⟩
    · exact ⟨rfl, by simp [main_run], by simp [main_run]⟩
    · exact ⟨rfl, by simp [main_run], by simp [main_run]⟩
    · simp only [List.length_cons] at hlen
      omega

/-- C8: for a username that passes validation but is not found by the
identity lookup, the process exits 1 after the lookup, with no fork and no
privilege change performed. -/
theorem spec_C8_unknown_user (prog username command : String)
    (rest : List String) (w : MainWorld)
    (hval : is_valid_username username = true)
    (hcmd : is_allowed_command command = true)
    (hpw : w.pwnam username = none) :
    main_run (prog :: username :: command :: rest) w =
      RunResult.mk [Ev.checkUsernameE, Ev.checkCommandE, Ev.captureE,
        Ev.lookupE, Ev.msg "User not found"] 1 none ∧
    Ev.forkE ∉ (main_run (prog :: username :: command :: rest) w).trace ∧
    ∀ ev ∈ (main_run (prog :: username :: command :: rest) w).trace,
      isPrivEv ev = false := by
  have hm : main_run (prog :: username :: command :: rest) w =
      RunResult.mk [Ev.checkUsernameE, Ev.checkCommandE, Ev.captureE,
        Ev.lookupE, Ev.msg "User not found"] 1 none := by
    simp [main_run, hval, hcmd, hpw, preserve_ret_zero]
  refine ⟨hm, ?_, ?_⟩
  · rw [hm]
    simp
  · rw [hm]
    intro ev hev
    simp at hev
    rcases hev with h | h | h | h | h <;> subst h <;> rfl

/-- C9: the environment-capture operation returns 0 for every environment;
it has no failure outcome, so the error branch in main that reports a
capture failure and exits 1 is unreachable (its diagnostic never appears
in any trace). -/
theorem spec_C9_capture_never_fails :
    (∀ env : EnvMap, (preserve_lsf_environment env).1 = 0) ∧
    (∀ (argv : List String) (w : MainWorld),
      Ev.msg "Failed to preserve environment variables" ∉
        (main_run argv w).trace) := by
  refine ⟨preserve_ret_zero, ?_⟩
  intro argv w
  rcases argv with _ | ⟨a, _ | ⟨u, _ | ⟨cm, rest⟩⟩⟩
  · simp [main_run]
  · simp [main_run]
  · simp [main_run]
  · cases hval : is_valid_username u with
    | false => simp [main_run, hval]
    | true =>
      cases hcmd : is_allowed_command cm with
      | false => simp [main_run, hval, hcmd]
      | true =>
        cases hpw : w.pwnam u with
        | none => simp [main_run, hval, hcmd, hpw, preserve_ret_zero]
        | some pwd =>
          intro hmem
          have hchild := run_child_no_capture_msg w.child u cm pwd
            (preserve_lsf_environment w.env).2
          cases hfork : w.fork_ok with
          | false =>
            simp [main_run, hval, hcmd, hpw, hfork, preserve_ret_zero] at hmem
          | true =>
            cases hwait : w.wait_ok with
            | false =>
              simp [main_run, hval, hcmd, hpw, hfork, hwait,
                preserve_ret_zero] at hmem
              exact hchild hmem
            | true =>
              simp [main_run, hval, hcmd, hpw, hfork, hwait,
                preserve_ret_zero] at hmem
              exact hchild hmem

/-- C4: the parent's exit status is the child's exit code on a normal
exit, 128 plus the signal number on a termination by signal, 1 on any
other child status, and 1 on a fork failure (with no child-related events)
or a wait failure. -/
theorem spec_C4_exit_status_mapping (argv : List String) (w : MainWorld) :
    (w.fork_ok = false → Ev.forkE ∈ (main_run argv w).trace →
      main_run argv w = RunResult.mk [Ev.checkUsernameE, Ev.checkCommandE,
        Ev.captureE, Ev.lookupE, Ev.forkE, Ev.msg "fork failed"] 1 none) ∧
    (w.wait_ok = false → Ev.forkE ∈ (main_run argv w).trace →
      (main_run argv w).exit = 1) ∧
    (∀ code, (main_run argv w).status = some (WaitStatus.exited code) →
      (main_run argv w).exit = code) ∧
    (∀ sig, (main_run argv w).status = some (WaitStatus.signaled sig) →
      (main_run argv w).exit = 128 + sig) ∧
    ((main_run argv w).status = some WaitStatus.other →
      (main_run argv w).exit = 1) := by
  rcases argv with _ | ⟨a, _ | ⟨u, _ | ⟨cm, rest⟩⟩⟩
  · refine ⟨?_, ?_, ?_, ?_, ?_⟩ <;> intro h1 <;> (try intro h2) <;>
        simp [main_run] at *
  · refine ⟨?_, ?_, ?_, ?_, ?_⟩ <;> intro h1 <;> (try intro h2) <;>
        simp [main_run] at *
  · refine ⟨?_, ?_, ?_, ?_, ?_⟩ <;> intro h1 <;> (try intro h2) <;>
        simp [main_run] at *
  · cases hval : is_valid_username u with
    | false =>
      refine ⟨?_, ?_, ?_, ?_, ?_⟩ <;> intro h1 <;> (try intro h2) <;>
        simp [main_run, hval] at *
    | true =>
      cases hcmd : is_allowed_command cm with
      | false =>
        refine ⟨?_, ?_, ?_, ?_, ?_⟩ <;> intro h1 <;> (try intro h2) <;>
          simp [main_run, hval, hcmd] at *
      | true =>
        cases hpw : w.pwnam u with
        | none =>
          refine ⟨?_, ?_, ?_, ?_, ?_⟩ <;> intro h1 <;> (try intro h2) <;>
            simp [main_run, hval, hcmd, hpw, preserve_ret_zero] at *
        | some pwd =>
          cases hfork : w.fork_ok with
          | false =>
            have hm : main_run (a :: u :: cm :: rest) w =
                RunResult.mk [Ev.checkUsernameE, Ev.checkCommandE,
                  Ev.captureE, Ev.lookupE, Ev.forkE,
                  Ev.msg "fork failed"] 1 none := by
              simp [main_run, hval, hcmd, hpw, hfork, preserve_ret_zero]
            refine ⟨fun _ _ => hm, ?_, ?_, ?_, ?_⟩
            · intro h1 h2
              rw [hm]
            · intro code hst
              rw [hm] at hst
              cases hst
            · intro sig hst
              rw [hm] at hst
              cases hst
            · intro hst
              rw [hm] at hst
              cases hst
          | true =>
            cases hwait : w.wait_ok with
            | false =>
              have hm : main_run (a :: u :: cm :: rest) w =
                  RunResult.mk ([Ev.checkUsernameE, Ev.checkCommandE,
                    Ev.captureE, Ev.lookupE, Ev.forkE] ++
                    (run_child w.child u cm pwd
                      (preserve_lsf_environment w.env).2).1 ++
                    [Ev.waitE, Ev.msg "waitpid failed"]) 1 none := by
                simp [main_run, hval, hcmd, hpw, hfork, hwait,
                  preserve_ret_zero]
              refine ⟨?_, ?_, ?_, ?_, ?_⟩
              · intro h1 h2
                cases h1
              · intro h1 h2
                rw [hm]
              · intro code hst
                rw [hm] at hst
                cases hst
              · intro sig hst
                rw [hm] at hst
                cases hst
              · intro hst
                rw [hm] at hst
                cases hst
            | true =>
              have hm : main_run (a :: u :: cm :: rest) w =
                  RunResult.mk ([Ev.checkUsernameE, Ev.checkCommandE,
                    Ev.captureE, Ev.lookupE, Ev.forkE] ++
                    (run_child w.child u cm pwd
                      (preserve_lsf_environment w.env).2).1 ++ [Ev.waitE])
                    (wait_status_to_exit (observed_status w
                      (run_child w.child u cm pwd
                        (preserve_lsf_environment w.env).2).2))
                    (some (observed_status w
                      (run_child w.child u cm pwd
                        (preserve_lsf_environment w.env).2).2)) := by
                simp [main_run, hval, hcmd, hpw, hfork, hwait,
                  preserve_ret_zero]
              refine ⟨?_, ?_, ?_, ?_, ?_⟩
              · intro h1 h2
                cases h1
              · intro h1 h2
                cases h1
              · intro code hst
                rw [hm] at hst ⊢
                simp only at hst ⊢
                have hX := Option.some.inj hst
                rw [hX]
                rfl
              · intro sig hst
                rw [hm] at hst ⊢
                simp only at hst ⊢
                have hX := Option.some.inj hst
                rw [hX]
                rfl
              · intro hst
                rw [hm] at hst ⊢
                simp only at hst ⊢
                have hX := Option.some.inj hst
                rw [hX]
                rfl

/-- C5: in every execution both policy-gate checks complete before the
identity lookup, the environment capture runs only after the policy gate
has passed, and the capture completes before the environment is
cleared. -/
theorem spec_C5_gate_capture_ordering :
    (∀ (argv : List String) (w : MainWorld), argv.length < 3 →
      Ev.lookupE ∉ (main_run argv w).trace ∧
      Ev.captureE ∉ (main_run argv w).trace ∧
      Ev.clearenvE ∉ (main_run argv w).trace) ∧
    (∀ (prog username command : String) (rest : List String) (w : MainWorld),
      (Ev.lookupE ∈ (main_run (prog :: username :: command :: rest) w).trace →
        occursBefore Ev.checkUsernameE Ev.lookupE
          (main_run (prog :: username :: command :: rest) w).trace ∧
        occursBefore Ev.checkCommandE Ev.lookupE
          (main_run (prog :: username :: command :: rest) w).trace) ∧
      (Ev.captureE ∈ (main_run (prog :: username :: command :: rest) w).trace →
        is_valid_username username = true ∧
        is_allowed_command command = true ∧
        occursBefore Ev.checkUsernameE Ev.captureE
          (main_run (prog :: username :: command :: rest) w).trace ∧
        occursBefore Ev.checkCommandE Ev.captureE
          (main_run (prog :: username :: command :: rest) w).trace) ∧
      (Ev.clearenvE ∈ (main_run (prog :: username :: command :: rest) w).trace →
        occursBefore Ev.captureE Ev.clearenvE
          (main_run (prog :: username :: command :: rest) w).trace)) := by
  constructor
  · intro argv w hlen
    rcases argv with _ | ⟨a, _ | ⟨b, _ | ⟨c, rest⟩⟩⟩
    · exact ⟨by simp [main_run], by simp [main_run], by simp [main_run]⟩
    · exact ⟨by simp [main_run], by simp [main_run], by simp [main_run]⟩
    · exact ⟨by simp [main_run], by simp [main_run], by simp [main_run]⟩
    · simp only [List.length_cons] at hlen
      omega
  · intro prog username command rest w
    cases hval : is_valid_username username with
    | false =>
      refine ⟨?_, ?_, ?_⟩ <;> intro hmem <;> simp [main_run, hval] at hmem
    | true =>
      cases hcmd : is_allowed_command command with
      | false =>
        refine ⟨?_, ?_, ?_⟩ <;> intro hmem <;>
          simp [main_run, hval, hcmd] at hmem
      | true =>
        cases hpw : w.pwnam username with
        | none =>
          have hm : main_run (prog :: username :: command :: rest) w =
              RunResult.mk [Ev.checkUsernameE, Ev.checkCommandE, Ev.captureE,
                Ev.lookupE, Ev.msg "User not found"] 1 none := by
            simp [main_run, hval, hcmd, hpw, preserve_ret_zero]
          refine ⟨?_, ?_, ?_⟩
          · intro hmem
            exact ⟨⟨[Ev.checkUsernameE, Ev.checkCommandE, Ev.captureE],
                [Ev.msg "User not found"], by rw [hm]; rfl, by simp⟩,
              ⟨[Ev.checkUsernameE, Ev.checkCommandE, Ev.captureE],
                [Ev.msg "User not found"], by rw [hm]; rfl, by simp⟩⟩
          · intro hmem
            exact ⟨rfl, rfl,
              ⟨[Ev.checkUsernameE, Ev.checkCommandE],
                [Ev.lookupE, Ev.msg "User not found"], by rw [hm]; rfl, by simp⟩,
              ⟨[Ev.checkUsernameE, Ev.checkCommandE],
                [Ev.lookupE, Ev.msg "User not found"], by rw [hm]; rfl, by simp⟩⟩
          · intro hmem
            rw [hm] at hmem
            simp at hmem
        | some pwd =>
          cases hfork : w.fork_ok with
          | false =>
            have hm : main_run (prog :: username :: command :: rest) w =
                RunResult.mk [Ev.checkUsernameE, Ev.checkCommandE,
                  Ev.captureE, Ev.lookupE, Ev.forkE,
                  Ev.msg "fork failed"] 1 none := by
              simp [main_run, hval, hcmd, hpw, hfork, preserve_ret_zero]
            refine ⟨?_, ?_, ?_⟩
            · intro hmem
              exact ⟨⟨[Ev.checkUsernameE, Ev.checkCommandE, Ev.captureE],
                  [Ev.forkE, Ev.msg "fork failed"], by rw [hm]; rfl, by simp⟩,
                ⟨[Ev.checkUsernameE, Ev.checkCommandE, Ev.captureE],
                  [Ev.forkE, Ev.msg "fork failed"], by rw [hm]; rfl, by simp⟩⟩
            · intro hmem
              exact ⟨rfl, rfl,
                ⟨[Ev.checkUsernameE, Ev.checkCommandE],
                  [Ev.lookupE, Ev.forkE, Ev.msg "fork failed"],
                  by rw [hm]; rfl, by simp⟩,
                ⟨[Ev.checkUsernameE, Ev.checkCommandE],
                  [Ev.lookupE, Ev.forkE, Ev.msg "fork failed"],
                  by rw [hm]; rfl, by simp⟩⟩
            · intro hmem
              rw [hm] at hmem
              simp at hmem
          | true =>
            cases hwait : w.wait_ok with
            | false =>
              have hm : main_run (prog :: username :: command :: rest) w =
                  RunResult.mk ([Ev.checkUsernameE, Ev.checkCommandE,
                    Ev.captureE, Ev.lookupE, Ev.forkE] ++
                    (run_child w.child username command pwd
                      (preserve_lsf_environment w.env).2).1 ++
                    [Ev.waitE, Ev.msg "waitpid failed"]) 1 none := by
                simp [main_run, hval, hcmd, hpw, hfork, hwait,
                  preserve_ret_zero]
              refine ⟨?_, ?_, ?_⟩
              · intro hmem
                exact ⟨⟨[Ev.checkUsernameE, Ev.checkCommandE, Ev.captureE],
                    Ev.forkE :: ((run_child w.child username command pwd
                      (preserve_lsf_environment w.env).2).1 ++
                      [Ev.waitE, Ev.msg "waitpid failed"]),
                    by rw [hm]; simp, by simp⟩,
                  ⟨[Ev.checkUsernameE, Ev.checkCommandE, Ev.captureE],
                    Ev.forkE :: ((run_child w.child username command pwd
                      (preserve_lsf_environment w.env).2).1 ++
                      [Ev.waitE, Ev.msg "waitpid failed"]),
                    by rw [hm]; simp, by simp⟩⟩
              · intro hmem
                exact ⟨rfl, rfl,
                  ⟨[Ev.checkUsernameE, Ev.checkCommandE],
                    Ev.lookupE :: Ev.forkE ::
                      ((run_child w.child username command pwd
                        (preserve_lsf_environment w.env).2).1 ++
                        [Ev.waitE, Ev.msg "waitpid failed"]),
                    by rw [hm]; simp, by simp⟩,
                  ⟨[Ev.checkUsernameE, Ev.checkCommandE],
                    Ev.lookupE :: Ev.forkE ::
                      ((run_child w.child username command pwd
                        (preserve_lsf_environment w.env).2).1 ++
                        [Ev.waitE, Ev.msg "waitpid failed"]),
                    by rw [hm]; simp, by simp⟩⟩
              · intro hmem
                rw [hm] at hmem
                simp at hmem
                obtain ⟨s, t, hct⟩ := List.append_of_mem hmem
                refine ⟨[Ev.checkUsernameE, Ev.checkCommandE, Ev.captureE,
                    Ev.lookupE, Ev.forkE] ++ s,
                  t ++ [Ev.waitE, Ev.msg "waitpid failed"], ?_, by simp⟩
                rw [hm]
                simp only [RunResult.mk.injEq]
                rw [hct]
                simp
            | true =>
              have hm : main_run (prog :: username :: command :: rest) w =
                  RunResult.mk ([Ev.checkUsernameE, Ev.checkCommandE,
                    Ev.captureE, Ev.lookupE, Ev.forkE] ++
                    (run_child w.child username command pwd
                      (preserve_lsf_environment w.env).2).1 ++ [Ev.waitE])
                    (wait_status_to_exit (observed_status w
                      (run_child w.child username command pwd
                        (preserve_lsf_environment w.env).2).2))
                    (some (observed_status w
                      (run_child w.child username command pwd
                        (preserve_lsf_environment w.env).2).2)) := by
                simp [main_run, hval, hcmd, hpw, hfork, hwait,
                  preserve_ret_zero]
              refine ⟨?_, ?_, ?_⟩
              · intro hmem
                exact ⟨⟨[Ev.checkUsernameE, Ev.checkCommandE, Ev.captureE],
                    Ev.forkE :: ((run_child w.child username command pwd
                      (preserve_lsf_environment w.env).2).1 ++ [Ev.waitE]),
                    by rw [hm]; simp, by simp⟩,
                  ⟨[Ev.checkUsernameE, Ev.checkCommandE, Ev.captureE],
                    Ev.forkE :: ((run_child w.child username command pwd
                      (preserve_lsf_environment w.env).2).1 ++ [Ev.waitE]),
                    by rw [hm]; simp, by simp⟩⟩
              · intro hmem
                exact ⟨rfl, rfl,
                  ⟨[Ev.checkUsernameE, Ev.checkCommandE],
                    Ev.lookupE :: Ev.forkE ::
                      ((run_child w.child username command pwd
                        (preserve_lsf_environment w.env).2).1 ++ [Ev.waitE]),
                    by rw [hm]; simp, by simp⟩,
                  ⟨[Ev.checkUsernameE, Ev.checkCommandE],
                    Ev.lookupE :: Ev.forkE ::
                      ((run_child w.child username command pwd
                        (preserve_lsf_environment w.env).2).1 ++ [Ev.waitE]),
                    by rw [hm]; simp, by simp⟩⟩
              · intro hmem
                rw [hm] at hmem
                simp at hmem
                obtain ⟨s, t, hct⟩ := List.append_of_mem hmem
                refine ⟨[Ev.checkUsernameE, Ev.checkCommandE, Ev.captureE,
                    Ev.lookupE, Ev.forkE] ++ s,
                  t ++ [Ev.waitE], ?_, by simp⟩
                rw [hm]
                simp only [RunResult.mk.injEq]
                rw [hct]
                simp

theorem strncpyTrunc_length (s : String) :
    (strncpyTrunc s).length ≤ MAX_ENV_VAR_LEN - 1 := by
  unfold strncpyTrunc
  have h : (String.mk (s.data.take (MAX_ENV_VAR_LEN - 1))).length =
      (s.data.take (MAX_ENV_VAR_LEN - 1)).length := rfl
  rw [h, List.length_take]
  omega

theorem preserve_no_path (env : EnvMap)
    (hg : getenv_m env "PATH" = none) :
    (preserve_lsf_environment env).2 =
      lsf_env_vars.foldl (preserveStep env) [] := by
  unfold preserve_lsf_environment
  rw [hg]

theorem preserve_foldl_subset (env : EnvMap) :
    ∀ v ∈ lsf_env_vars.foldl (preserveStep env) [],
      v ∈ (preserve_lsf_environment env).2 := by
  intro v hv
  cases hg : getenv_m env "PATH" with
  | none =>
    rw [preserve_no_path env hg]
    exact hv
  | some s =>
    rw [preserve_path_entry env s hg]
    exact List.mem_append_left _ hv

/-- C6: the capture step copies each allow-listed variable that is present
(and PATH) into the preserved set with the value truncated to the fixed
maximum length, never fails, and never stores more than the fixed maximum
count of variables. -/
theorem spec_C6_capture_bounded (env : EnvMap) :
    (preserve_lsf_environment env).1 = 0 ∧
    (preserve_lsf_environment env).2.length ≤ MAX_ENV_VARS ∧
    (∀ v ∈ (preserve_lsf_environment env).2,
      v.name.length ≤ MAX_ENV_VAR_LEN - 1 ∧
      v.value.length ≤ MAX_ENV_VAR_LEN - 1 ∧
      ∃ s, getenv_m env v.name = some s ∧ v.value = strncpyTrunc s) ∧
    (∀ nm ∈ lsf_env_vars, ∀ s, getenv_m env nm = some s →
      (⟨nm, strncpyTrunc s⟩ : env_var) ∈ (preserve_lsf_environment env).2) ∧
    (∀ s, getenv_m env "PATH" = some s →
      (⟨"PATH", strncpyTrunc s⟩ : env_var) ∈
        (preserve_lsf_environment env).2) := by
  refine ⟨preserve_ret_zero env, ?_, ?_, ?_, ?_⟩
  · have h := preserve_len_le_76 env
    unfold MAX_ENV_VARS
    omega
  · intro v hv
    rcases preserve_mem_char env v hv with ⟨nm, hnm, s, hg, hveq⟩ |
      ⟨s, hg, hveq⟩
    · subst hveq
      refine ⟨strncpyTrunc_length nm, strncpyTrunc_length s, s, ?_, rfl⟩
      simpa [strncpyTrunc_lsf_id nm hnm] using hg
    · subst hveq
      refine ⟨?_, strncpyTrunc_length s, s, hg, rfl⟩
      show ("PATH" : String).length ≤ MAX_ENV_VAR_LEN - 1
      decide
  · intro nm hnm s hg
    have hmem := preserve_foldl_copied env lsf_env_vars [] nm s hnm hg
      (by rw [List.length_nil, lsf_env_vars_length]; unfold MAX_ENV_VARS; omega)
    have hsub := preserve_foldl_subset env _ hmem
    rwa [strncpyTrunc_lsf_id nm hnm] at hsub
  · intro s hg
    rw [preserve_path_entry env s hg]
    exact List.mem_append_right _ (by simp)

theorem preserve_foldl_filter_count (env : EnvMap) (n s : String)
    (hg : getenv_m env n = some s) :
    ∀ (nms : List String) (acc : List env_var),
      acc.length + nms.length ≤ MAX_ENV_VARS →
      (∀ nm ∈ nms, strncpyTrunc nm = nm) →
      ((nms.foldl (preserveStep env) acc).filter
        (fun v => v.name == n)).length =
      (acc.filter (fun v => v.name == n)).length + nms.count n := by
  intro nms
  induction nms with
  | nil =>
    intro acc _ _
    simp
  | cons nm2 nms ih =>
    intro acc hlen htr
    simp only [List.length_cons] at hlen
    have hacc : acc.length < MAX_ENV_VARS := by omega
    have hrec := ih (preserveStep env acc nm2)
      (by have := preserveStep_len env acc nm2; omega)
      (fun x hx => htr x (List.mem_cons_of_mem _ hx))
    simp only [List.foldl_cons]
    rw [hrec]
    by_cases he : nm2 = n
    · subst he
      have hstep : ((preserveStep env acc nm2).filter
          (fun v => v.name == nm2)).length =
          (acc.filter (fun v => v.name == nm2)).length + 1 := by
        unfold preserveStep
        rw [if_pos hacc, hg]
        rw [List.filter_append]
        simp [htr nm2 (List.mem_cons_self nm2 nms)]
      rw [hstep, List.count_cons_self]
      omega
    · have hstep : ((preserveStep env acc nm2).filter
          (fun v => v.name == n)).length =
          (acc.filter (fun v => v.name == n)).length := by
        unfold preserveStep
        rw [if_pos hacc]
        cases hgm : getenv_m env nm2 with
        | none => rfl
        | some s2 =>
          rw [List.filter_append]
          have hne : ¬ (strncpyTrunc nm2 = n) := by
            rw [htr nm2 (List.mem_cons_self nm2 nms)]
            exact he
          simp [hne]
      rw [hstep, List.count_cons_of_ne (fun hc => he hc.symm)]

theorem preserve_filter_count (env : EnvMap) (n s : String)
    (hg : getenv_m env n = some s) (hn : n ∈ lsf_env_vars) :
    ((preserve_lsf_environment env).2.filter
      (fun v => v.name == n)).length = lsf_env_vars.count n := by
  have hfold := preserve_foldl_filter_count env n s hg lsf_env_vars []
    (by rw [List.length_nil, lsf_env_vars_length]; unfold MAX_ENV_VARS; omega)
    strncpyTrunc_lsf_id
  simp only [List.filter_nil, List.length_nil, Nat.zero_add] at hfold
  have hPathNe : ¬ (("PATH" : String) = n) := fun hc =>
    absurd (hc ▸ hn) (by decide)
  cases hgp : getenv_m env "PATH" with
  | none =>
    rw [preserve_no_path env hgp]
    exact hfold
  | some sp =>
    rw [preserve_path_entry env sp hgp, List.filter_append]
    simp [hPathNe, hfold]

/-- C10: the allow-list table has 75 entries with LSB_SHAREDIR, LSB_HOSTS
and LSB_MCPU_HOSTS each listed twice; at most 76 variables (table entries
plus PATH) are ever preserved, strictly below the capacity of 100, so the
silent-drop branch never runs; PATH is preserved whenever set; and a
duplicated table name occupies two slots holding identical values. -/
theorem spec_C10_capacity_never_reached :
    lsf_env_vars.length = 75 ∧
    lsf_env_vars.count "LSB_SHAREDIR" = 2 ∧
    lsf_env_vars.count "LSB_HOSTS" = 2 ∧
    lsf_env_vars.count "LSB_MCPU_HOSTS" = 2 ∧
    75 + 1 < MAX_ENV_VARS ∧
    (∀ env : EnvMap, (preserve_lsf_environment env).2.length ≤ 76) ∧
    (∀ (env : EnvMap) (s : String), getenv_m env "PATH" = some s →
      (⟨"PATH", strncpyTrunc s⟩ : env_var) ∈ (preserve_lsf_environment env).2) ∧
    (∀ (env : EnvMap) (s : String), getenv_m env "LSB_SHAREDIR" = some s →
      ((preserve_lsf_environment env).2.filter
        (fun v => v.name == "LSB_SHAREDIR")).length = 2) ∧
    (∀ env : EnvMap, ∀ v1 ∈ (preserve_lsf_environment env).2,
      ∀ v2 ∈ (preserve_lsf_environment env).2,
      v1.name = v2.name → v1.value = v2.value) := by
  refine ⟨rfl, by decide, by decide, by decide, by decide,
    preserve_len_le_76, ?_, ?_, ?_⟩
  · intro env s hg
    rw [preserve_path_entry env s hg]
    exact List.mem_append_right _ (by simp)
  · intro env s hg
    rw [preserve_filter_count env _ s hg (by decide)]
    decide
  · intro env v1 h1 v2 h2 hname
    obtain ⟨s1, hg1, hv1⟩ := preserve_entry_sound env v1 h1
    obtain ⟨s2, hg2, hv2⟩ := preserve_entry_sound env v2 h2
    rw [hname] at hg1
    rw [hg2] at hg1
    cases hg1
    rw [hv1, hv2]

/-- Concrete resolved identity used by the witnesses. -/
def pwd0 : Passwd := ⟨1000, 1000, "/home/alice", "/bin/bash"⟩

/-- Child oracle in which every syscall succeeds and the uids check out. -/
def cw_ok : ChildWorld :=
  ⟨true, true, true, 1000, 1000, true, fun _ _ => true, true, true⟩

/-- Child oracle in which the `setgid` call fails. -/
def cw_sgfail : ChildWorld :=
  ⟨true, false, true, 1000, 1000, true, fun _ _ => true, true, true⟩

/-- Concrete starting environment used by the witnesses. -/
def env0w : EnvMap :=
  [("PATH", "/usr/bin"), ("SECRET", "x"), ("LSF_BINDIR", "/lsf/bin")]

/-- Environment rebuilt by the child from `env0w` for user alice. -/
def rebuilt0 : EnvMap :=
  [("USER", "alice"), ("LOGNAME", "alice"), ("HOME", "/home/alice"),
   ("SHELL", "/bin/bash"), ("LSF_BINDIR", "/lsf/bin"), ("PATH", "/usr/bin")]

/-- Main oracle: alice resolves, fork and wait succeed, the exec'd program
exits with code 7. -/
def mw0 : MainWorld :=
  ⟨env0w, fun u => if u = "alice" then some pwd0 else none, true, true,
   none, WaitStatus.exited 7, cw_ok⟩

/-- Main oracle in which `fork` fails. -/
def mw_forkfail : MainWorld :=
  ⟨env0w, fun _ => some pwd0, false, true, none, WaitStatus.exited 0, cw_ok⟩

/-- Main oracle in which the identity lookup finds no user. -/
def mw_nouser : MainWorld :=
  ⟨env0w, fun _ => none, true, true, none, WaitStatus.exited 0, cw_ok⟩

/-- Concrete argument vector used by the witnesses. -/
def argv0 : List String := ["runner", "alice", "bjobs"]

/-- Environment with a duplicated table name set, for the C10 witness. -/
def env_sh : EnvMap := [("LSB_SHAREDIR", "/lsf/share")]

/-- Witness for C1: with a failing setgid the child exits 1, with no
environment rebuild. -/
theorem spec_C1_child_privilege_transition_witness :
    (run_child cw_sgfail "alice" "bjobs" pwd0 []).2 = ChildOutcome.exited 1 ∧
    Ev.clearenvE ∉ (run_child cw_sgfail "alice" "bjobs" pwd0 []).1 := by
  have h := (spec_C1_child_privilege_transition cw_sgfail "alice" "bjobs"
    pwd0 []).2.1 (Or.inr (Or.inl rfl))
  exact ⟨h.1, h.2.1⟩

/-- Witness for C2: in the concrete rebuilt environment, the unlisted
variable SECRET is gone and USER is the username. -/
theorem spec_C2_rebuilt_environment_exact_witness :
    getenv_m rebuilt0 "SECRET" = none ∧
    getenv_m rebuilt0 "USER" = some "alice" := by
  have h1 := spec_C2_rebuilt_environment_exact env0w cw_ok "alice" pwd0
    rebuilt0 rfl "SECRET"
  have h2 := spec_C2_rebuilt_environment_exact env0w cw_ok "alice" pwd0
    rebuilt0 rfl "USER"
  constructor
  · rw [h1]
    decide
  · rw [h2]
    decide

/-- Witness for C3: a full path to an allowed command is accepted, and a
non-allowed command exits 1 without forking. -/
theorem spec_C3_command_check_witness :
    is_allowed_command "/usr/bin/bjobs" = true ∧
    (main_run ["runner", "alice", "/usr/bin/bjobsx"] mw0).exit = 1 ∧
    Ev.forkE ∉ (main_run ["runner", "alice", "/usr/bin/bjobsx"] mw0).trace := by
  have h := (spec_C3_command_check).2.2 "runner" "alice" "/usr/bin/bjobsx"
    [] mw0 (by decide)
  exact ⟨(spec_C3_command_check.1 "/usr/bin/bjobs").mpr (by decide),
    h.1, h.2.2.1⟩

/-- Witness for C4: a fork failure exits 1 with no child events, and an
exec'd program exiting 7 makes the launcher exit 7. -/
theorem spec_C4_exit_status_mapping_witness :
    main_run argv0 mw_forkfail = RunResult.mk [Ev.checkUsernameE,
      Ev.checkCommandE, Ev.captureE, Ev.lookupE, Ev.forkE,
      Ev.msg "fork failed"] 1 none ∧
    (main_run argv0 mw0).exit = 7 := by
  refine ⟨(spec_C4_exit_status_mapping argv0 mw_forkfail).1 rfl (by decide),
    ?_⟩
  exact (spec_C4_exit_status_mapping argv0 mw0).2.2.1 7 rfl

/-- Witness for C5: in a concrete full run, the username check precedes
the lookup and the capture precedes the environment clearing. -/
theorem spec_C5_gate_capture_ordering_witness :
    occursBefore Ev.checkUsernameE Ev.lookupE (main_run argv0 mw0).trace ∧
    occursBefore Ev.captureE Ev.clearenvE (main_run argv0 mw0).trace := by
  have h := (spec_C5_gate_capture_ordering).2 "runner" "alice" "bjobs" [] mw0
  exact ⟨(h.1 (by decide)).1, h.2.2 (by decide)⟩

/-- Witness for C6: capture of `env0w` succeeds and preserves PATH. -/
theorem spec_C6_capture_bounded_witness :
    (preserve_lsf_environment env0w).1 = 0 ∧
    (env_var.mk "PATH" (strncpyTrunc "/usr/bin")) ∈
      (preserve_lsf_environment env0w).2 := by
  have h := spec_C6_capture_bounded env0w
  exact ⟨h.1, h.2.2.2.2 "/usr/bin" rfl⟩

/-- Witness for C7: an empty username exits 1 immediately, and so does a
one-argument invocation. -/
theorem spec_C7_empty_username_witness :
    main_run ["runner", "", "bjobs"] mw0 =
      RunResult.mk [Ev.checkUsernameE, Ev.msg "Username cannot be empty"]
        1 none ∧
    (main_run ["runner"] mw0).exit = 1 := by
  have h2 := (spec_C7_empty_username).2.1 "runner" "" "bjobs" [] mw0
    (by decide)
  have h3 := (spec_C7_empty_username).2.2 ["runner"] mw0 (by decide)
  exact ⟨h2.1, h3.1⟩

/-- Witness for C8: an unknown user exits 1 right after the lookup. -/
theorem spec_C8_unknown_user_witness :
    main_run argv0 mw_nouser = RunResult.mk [Ev.checkUsernameE,
      Ev.checkCommandE, Ev.captureE, Ev.lookupE,
      Ev.msg "User not found"] 1 none :=
  (spec_C8_unknown_user "runner" "alice" "bjobs" [] mw_nouser (by decide)
    (by decide) rfl).1

/-- Witness for C9: capture returns 0 on `env0w` and the capture-failure
diagnostic is absent from a concrete full run. -/
theorem spec_C9_capture_never_fails_witness :
    (preserve_lsf_environment env0w).1 = 0 ∧
    Ev.msg "Failed to preserve environment variables" ∉
      (main_run argv0 mw0).trace :=
  ⟨(spec_C9_capture_never_fails).1 env0w,
   (spec_C9_capture_never_fails).2 argv0 mw0⟩

/-- Witness for C10: capture of `env_sh` stays within 76 entries and the
duplicated name LSB_SHAREDIR occupies exactly two slots. -/
theorem spec_C10_capacity_never_reached_witness :
    (preserve_lsf_environment env_sh).2.length ≤ 76 ∧
    ((preserve_lsf_environment env_sh).2.filter
      (fun v => v.name == "LSB_SHAREDIR")).length = 2 := by
  have h := spec_C10_capacity_never_reached
  exact ⟨h.2.2.2.2.2.1 env_sh, h.2.2.2.2.2.2.2.1 env_sh "/lsf/share" rfl⟩
